import Mathlib

/-!
Verification of the hapcodec Hap frame decoder (src/lib.rs).

The decoder is shallowly embedded: the input reader becomes an explicit
`List Nat` of bytes threaded through every function, fallible operations
return an `Outcome`, and the serial (non-threadpool) code path is modelled.

Modelling conventions, applied uniformly:
- Machine integers (u8, u24, u32, usize) are `Nat`; where the Rust code can
  overflow or underflow (the `bytestreaming -= ...` usize subtraction, the
  `size_subtotal += ...` u32 addition, the `size - consumed` usize
  subtraction), the embedding yields `Outcome.panic`, matching the
  overflow-checked (debug) semantics of Rust arithmetic, under which
  overflow aborts the program.  Slice indexing out of range
  (`buf[offset..offset + size]`, `compressors[i]`, `chunk_offsets[i]`)
  likewise yields `Outcome.panic` in every build profile.
- Snappy decompression is opaque to this library, so the decoder is
  parameterised by a pure function `snappy : List Nat -> Option (List Nat)`;
  `none` stands for a `snap::Error`.
- The `while bytestreaming != 0` loop of `decode_complex_instruction` is
  written with a fuel argument; every iteration consumes at least the
  4 bytes of a sub-section preamble from `bytestreaming`, so fuel
  `bytestreaming + 1` is always sufficient and the fuel-exhaustion branch
  is unreachable.
-/

namespace Hap

/-- Error type, mirroring `enum Error` in src/lib.rs.  The payloads of
`Io(io::Error)` and `Snappy(snap::Error)` carry no information the decoder
inspects, so they are dropped. -/
inductive Error where
  | UnknownCompressor : Nat → Error
  | UnknownTextureFormat : Nat → Error
  | ioErr : Error
  | UnknownDecodeInstruction : Nat → Error
  | snappyErr : Error
  | InternalThreadProblem : Error
deriving DecidableEq, Repr

/-- Result of running a piece of the decoder: success, a returned `Error`,
or a Rust panic (slice out of range, arithmetic overflow). -/
inductive Outcome (α : Type) where
  | ok : α → Outcome α
  | err : Error → Outcome α
  | panic : Outcome α
deriving DecidableEq, Repr

/-- Sequencing of outcomes: `err` and `panic` short-circuit. -/
def Outcome.bind {α β : Type} : Outcome α → (α → Outcome β) → Outcome β
  | .ok a, f => f a
  | .err e, _ => .err e
  | .panic, _ => .panic

/-- Mirrors `enum SecondStageCompressor`. -/
inductive SecondStageCompressor where
  | None
  | Snappy
  | Complex
deriving DecidableEq, Repr

/-- Mirrors `enum Texture`; `RawTexture = Vec<u8>` becomes `List Nat`. -/
inductive Texture where
  | RGB_DXT1_BC1 : List Nat → Texture
  | RGBA_DXT5_BC3 : List Nat → Texture
  | ScaledYCoCg_DXT5_BC3 : List Nat → Texture
  | RGBA_BC7 : List Nat → Texture
  | Alpha_RGTC1_BC4 : List Nat → Texture
  | RGBUnsignedFloat_BC6U : List Nat → Texture
  | RGBSignedFloat_BC6S : List Nat → Texture
  | MultipleImages_ScaledYCoCg_DXT5_Alpha_RGTC1 : List Nat → List Nat → Texture
deriving DecidableEq, Repr

/-- Mirrors `struct RawSection`. -/
structure RawSection where
  size : Nat
  section_type : Nat
  header_size : Nat
deriving DecidableEq, Repr

/-- Mirrors `struct ChunkInfo`. -/
structure ChunkInfo where
  offset : Nat
  size : Nat
  compressor : SecondStageCompressor
deriving DecidableEq, Repr

/-- Little-endian value of three bytes, as read by `read_u24::<LE>`. -/
def u24 (b0 b1 b2 : Nat) : Nat := b0 + 256 * b1 + 65536 * b2

/-- Little-endian value of four bytes, as read by `read_u32::<LE>`. -/
def u32 (b0 b1 b2 b3 : Nat) : Nat := b0 + 256 * b1 + 65536 * b2 + 16777216 * b3

/-- Mirrors `read_exact` into a buffer of length `n`: returns the bytes read
and the rest of the stream, or an IO error when the stream is short. -/
def readBytes (n : Nat) (input : List Nat) : Outcome (List Nat × List Nat) :=
  if n ≤ input.length then .ok (input.take n, input.drop n) else .err .ioErr

/-- Mirrors `fn parse_section_header`: read a 24-bit LE size and a type
byte; when the 24-bit size is zero, read a 32-bit LE size and report a
header size of 8, otherwise report 4. -/
def parse_section_header : List Nat → Outcome (RawSection × List Nat)
  | b0 :: b1 :: b2 :: t :: rest =>
    if u24 b0 b1 b2 = 0 then
      match rest with
      | c0 :: c1 :: c2 :: c3 :: rest2 =>
        .ok ({ size := u32 c0 c1 c2 c3, section_type := t, header_size := 8 }, rest2)
      | _ => .err .ioErr
    else
      .ok ({ size := u24 b0 b1 b2, section_type := t, header_size := 4 }, rest)
  | _ => .err .ioErr

/-- Mirrors `fn decode_second_stage_compressor`. -/
def decode_second_stage_compressor (compressor : Nat) : Outcome SecondStageCompressor :=
  if compressor = 0x0A then .ok .None
  else if compressor = 0x0B then .ok .Snappy
  else .err (.UnknownCompressor compressor)

/-- Mirrors `fn wrap_single_texture`: dispatch on the low nibble of the
texture format byte. -/
def wrap_single_texture (texture_format : Nat) (raw : List Nat) : Outcome Texture :=
  if texture_format &&& 0x0F = 0x0B then .ok (.RGB_DXT1_BC1 raw)
  else if texture_format &&& 0x0F = 0x0E then .ok (.RGBA_DXT5_BC3 raw)
  else if texture_format &&& 0x0F = 0x0F then .ok (.ScaledYCoCg_DXT5_BC3 raw)
  else if texture_format &&& 0x0F = 0x0C then .ok (.RGBA_BC7 raw)
  else if texture_format &&& 0x0F = 0x01 then .ok (.Alpha_RGTC1_BC4 raw)
  else if texture_format &&& 0x0F = 0x02 then .ok (.RGBUnsignedFloat_BC6U raw)
  else if texture_format &&& 0x0F = 0x03 then .ok (.RGBSignedFloat_BC6S raw)
  else .err (.UnknownTextureFormat (texture_format &&& 0x0F))

/-- Decoding of the second-stage compressor table: one byte per chunk,
failing on the first unknown byte, as `collect::<Result<Vec<_>, _>>` does. -/
def parseCompressorTable : List Nat → Outcome (List SecondStageCompressor)
  | [] => .ok []
  | b :: rest =>
    match decode_second_stage_compressor b with
    | .ok c =>
      match parseCompressorTable rest with
      | .ok cs => .ok (c :: cs)
      | .err e => .err e
      | .panic => .panic
    | .err e => .err e
    | .panic => .panic

/-- Decoding of a u32 LE table from `buf.chunks(4)` followed by
`read_u32::<LE>` on each chunk: a trailing chunk shorter than 4 bytes makes
`read_u32` fail with an IO error. -/
def parseU32Table : List Nat → Outcome (List Nat)
  | [] => .ok []
  | b0 :: b1 :: b2 :: b3 :: rest =>
    match parseU32Table rest with
    | .ok vs => .ok (u32 b0 b1 b2 b3 :: vs)
    | .err e => .err e
    | .panic => .panic
  | _ => .err .ioErr

/-- The `while bytestreaming != 0` loop of `decode_complex_instruction`.
Each pass parses a sub-section preamble, subtracts the consumed byte count
from `remaining` (the unchecked usize subtraction: overshoot is a panic),
reads the payload, and folds it into the three tables.  Sub-section type
0x02 REPLACES the compressor table, 0x03 and 0x04 APPEND to the size and
offset tables, any other type is skipped, exactly as in the source.
Fuel is always called with `remaining + 1`, which is sufficient because
each pass removes at least 4 from `remaining`. -/
def sub_section_loop :
    Nat → Nat → List Nat → List SecondStageCompressor → List Nat → List Nat →
    Outcome ((List SecondStageCompressor × List Nat × List Nat) × List Nat)
  | 0, _, _, _, _, _ => .panic
  | _ + 1, 0, input, comps, sizes, offs => .ok ((comps, sizes, offs), input)
  | fuel + 1, remaining, input, comps, sizes, offs =>
    match parse_section_header input with
    | .err e => .err e
    | .panic => .panic
    | .ok (sh, rest) =>
      if remaining < sh.header_size + sh.size then .panic
      else
        match readBytes sh.size rest with
        | .err e => .err e
        | .panic => .panic
        | .ok (buf, rest2) =>
          if sh.section_type = 0x02 then
            match parseCompressorTable buf with
            | .ok cs =>
              sub_section_loop fuel
                (remaining - (sh.header_size + sh.size)) rest2 cs sizes offs
            | .err e => .err e
            | .panic => .panic
          else if sh.section_type = 0x04 then
            match parseU32Table buf with
            | .ok os =>
              sub_section_loop fuel
                (remaining - (sh.header_size + sh.size)) rest2 comps sizes (offs ++ os)
            | .err e => .err e
            | .panic => .panic
          else if sh.section_type = 0x03 then
            match parseU32Table buf with
            | .ok ss =>
              sub_section_loop fuel
                (remaining - (sh.header_size + sh.size)) rest2 comps (sizes ++ ss) offs
            | .err e => .err e
            | .panic => .panic
          else
            sub_section_loop fuel
              (remaining - (sh.header_size + sh.size)) rest2 comps sizes offs

/-- The chunk-descriptor construction loop of `decode_complex_instruction`
(`for chunk_idx in 0..chunk_sizes.len()`), with `useTable` fixing the
`chunk_offsets.is_empty()` test once, as the loop never modifies that
vector.  Per iteration, in source order: fetch the offset (table index out
of bounds is a panic), add the chunk size to the u32 running subtotal
(overflow is a panic), index the compressor table (out of bounds is a
panic), and emit the `ChunkInfo`. -/
def buildChunksGo (useTable : Bool) :
    List Nat → List SecondStageCompressor → List Nat → Nat → Outcome (List ChunkInfo)
  | [], _, _, _ => .ok []
  | sz :: sizes, comps, offs, subtotal =>
    match (if useTable then
             match offs with
             | [] => (.panic : Outcome (Nat × List Nat))
             | o :: offs2 => .ok (o, offs2)
           else .ok (subtotal, offs)) with
    | .panic => .panic
    | .err e => .err e
    | .ok (offset, offs2) =>
      if 4294967296 ≤ subtotal + sz then .panic
      else
        match comps with
        | [] => .panic
        | comp :: comps2 =>
          match buildChunksGo useTable sizes comps2 offs2 (subtotal + sz) with
          | .ok rest => .ok ({ offset := offset, size := sz, compressor := comp } :: rest)
          | .err e => .err e
          | .panic => .panic

/-- Chunk-descriptor construction from the three parsed tables. -/
def buildChunks (comps : List SecondStageCompressor) (sizes offs : List Nat) :
    Outcome (List ChunkInfo) :=
  buildChunksGo (!offs.isEmpty) sizes comps offs 0

/-- Mirrors `fn decode_complex_instruction`: parse the complex header,
run the sub-section loop over its payload, build the chunk descriptors,
and return the consumed byte count together with the descriptors. -/
def decode_complex_instruction (input : List Nat) :
    Outcome ((Nat × List ChunkInfo) × List Nat) :=
  match parse_section_header input with
  | .err e => .err e
  | .panic => .panic
  | .ok (ch, rest) =>
    match sub_section_loop (ch.size + 1) ch.size rest [] [] [] with
    | .err e => .err e
    | .panic => .panic
    | .ok ((comps, sizes, offs), rest2) =>
      match buildChunks comps sizes offs with
      | .err e => .err e
      | .panic => .panic
      | .ok chunks => .ok ((ch.header_size + ch.size, chunks), rest2)

/-- The per-chunk loop of `decode_texture` in the serial (non-threadpool)
build.  For a Snappy chunk the body buffer is sliced at
`offset .. offset + size` (out of range is a panic) and decompressed; for
any other compressor the source executes `decoded_raw_data.append(&mut buf)`,
which moves the ENTIRE remaining body buffer into the output and leaves
`buf` empty for later chunks. -/
def processChunks (snappy : List Nat → Option (List Nat)) :
    List ChunkInfo → List Nat → List Nat → Outcome (List Nat)
  | [], _, acc => .ok acc
  | c :: cs, buf, acc =>
    if c.compressor = .Snappy then
      if c.offset + c.size ≤ buf.length then
        match snappy ((buf.drop c.offset).take c.size) with
        | some d => processChunks snappy cs buf (acc ++ d)
        | none => .err .snappyErr
      else .panic
    else
      processChunks snappy cs [] (acc ++ buf)

/-- Mirrors `fn decode_texture` (serial build): dispatch on the high nibble
of the section type; 0xC0 is the complex chunked path, 0xA0 the identity
path, 0xB0 the whole-body Snappy path, anything else an unknown compressor.
Returns the decoded payload with the low nibble of the section type, plus
the rest of the stream. -/
def decode_texture (snappy : List Nat → Option (List Nat)) (raw_section : RawSection)
    (input : List Nat) : Outcome ((List Nat × Nat) × List Nat) :=
  if raw_section.section_type &&& 0xF0 = 0xC0 then
    match decode_complex_instruction input with
    | .err e => .err e
    | .panic => .panic
    | .ok ((consumed, chunks), rest) =>
      if raw_section.size < consumed then .panic
      else
        match readBytes (raw_section.size - consumed) rest with
        | .err e => .err e
        | .panic => .panic
        | .ok (buf, rest2) =>
          match processChunks snappy chunks buf [] with
          | .err e => .err e
          | .panic => .panic
          | .ok payload => .ok ((payload, raw_section.section_type &&& 0x0F), rest2)
  else if raw_section.section_type &&& 0xF0 = 0xA0 then
    match readBytes raw_section.size input with
    | .err e => .err e
    | .panic => .panic
    | .ok (buf, rest) => .ok ((buf, raw_section.section_type &&& 0x0F), rest)
  else if raw_section.section_type &&& 0xF0 = 0xB0 then
    match readBytes raw_section.size input with
    | .err e => .err e
    | .panic => .panic
    | .ok (buf, rest) =>
      match snappy buf with
      | some d => .ok ((d, raw_section.section_type &&& 0x0F), rest)
      | none => .err .snappyErr
  else .err (.UnknownCompressor (raw_section.section_type &&& 0xF0))

/-- Mirrors `fn decode_frame`: parse the outer section; for the multi-image
marker 0x0D parse an inner section and use the consumed-equals-size test to
choose between the single-texture and two-texture paths; otherwise decode
the outer section itself as a texture. -/
def decode_frame (snappy : List Nat → Option (List Nat)) (input : List Nat) :
    Outcome (Texture × List Nat) :=
  match parse_section_header input with
  | .err e => .err e
  | .panic => .panic
  | .ok (o, r1) =>
    if o.section_type = 0x0D then
      match parse_section_header r1 with
      | .err e => .err e
      | .panic => .panic
      | .ok (i1, r2) =>
        if i1.header_size + i1.size = o.size then
          match decode_texture snappy i1 r2 with
          | .err e => .err e
          | .panic => .panic
          | .ok ((raw, fmt), r3) =>
            match wrap_single_texture fmt raw with
            | .ok t => .ok (t, r3)
            | .err e => .err e
            | .panic => .panic
        else
          match decode_texture snappy i1 r2 with
          | .err e => .err e
          | .panic => .panic
          | .ok ((dxt5, _), r3) =>
            match parse_section_header r3 with
            | .err e => .err e
            | .panic => .panic
            | .ok (i2, r4) =>
              match decode_texture snappy i2 r4 with
              | .err e => .err e
              | .panic => .panic
              | .ok ((rgtc1, _), r5) =>
                .ok (.MultipleImages_ScaledYCoCg_DXT5_Alpha_RGTC1 dxt5 rgtc1, r5)
    else
      match decode_texture snappy o r1 with
      | .err e => .err e
      | .panic => .panic
      | .ok ((raw, fmt), r1b) =>
        match wrap_single_texture fmt raw with
        | .ok t => .ok (t, r1b)
        | .err e => .err e
        | .panic => .panic

/-- Preamble encoder, modelled from the specification words for the
round-trip property: the short 4-byte form is used iff the size is nonzero
and fits in 24 bits; otherwise the long form writes a zero 24-bit field,
the type byte, and the size as u32 LE. -/
def encodePreamble (size ty : Nat) : List Nat :=
  if size ≠ 0 ∧ size < 16777216 then
    [size % 256, size / 256 % 256, size / 65536 % 256, ty]
  else
    [0, 0, 0, ty, size % 256, size / 256 % 256, size / 65536 % 256, size / 16777216 % 256]

/-- Prefix sums of a size list starting at `acc`: the offsets the chunk
loop assigns when the offset table is absent. -/
def cumSumsAux (acc : Nat) : List Nat → List Nat
  | [] => []
  | s :: rest => acc :: cumSumsAux (acc + s) rest

/-- Prefix sums starting at zero. -/
def cumSums (l : List Nat) : List Nat := cumSumsAux 0 l

/-- Snappy stub used for concrete evaluations along code paths that never
invoke Snappy decompression. -/
def snappyStub : List Nat → Option (List Nat) := fun _ => none

@[simp] theorem Outcome.bind_ok {α β : Type} (a : α) (f : α → Outcome β) :
    Outcome.bind (.ok a) f = f a := rfl

@[simp] theorem Outcome.bind_err {α β : Type} (e : Error) (f : α → Outcome β) :
    Outcome.bind (.err e) f = .err e := rfl

@[simp] theorem Outcome.bind_panic {α β : Type} (f : α → Outcome β) :
    Outcome.bind (.panic : Outcome α) f = .panic := rfl

/-- Claim C7: the per-chunk compressor byte decodes to None exactly for
0x0A, to Snappy exactly for 0x0B, and every other byte fails with
`UnknownCompressor` carrying the byte, so the legacy high-nibble values
0xA0 and 0xB0 are rejected. -/
theorem decode_second_stage_compressor_spec (b : Nat) :
    (b = 0x0A → decode_second_stage_compressor b = .ok .None) ∧
    (b = 0x0B → decode_second_stage_compressor b = .ok .Snappy) ∧
    (b ≠ 0x0A → b ≠ 0x0B → decode_second_stage_compressor b = .err (.UnknownCompressor b)) := by
  refine ⟨fun h => by simp [decode_second_stage_compressor, h],
    fun h => by simp [decode_second_stage_compressor, h],
    fun ha hb => by simp [decode_second_stage_compressor, ha, hb]⟩

/-- Witness for C7: 0x0A and 0x0B are accepted, and the legacy high-nibble
bytes 0xA0 and 0xB0 are rejected with `UnknownCompressor`. -/
theorem decode_second_stage_compressor_spec_witness :
    decode_second_stage_compressor 0x0A = .ok .None ∧
    decode_second_stage_compressor 0x0B = .ok .Snappy ∧
    decode_second_stage_compressor 0xA0 = .err (.UnknownCompressor 0xA0) ∧
    decode_second_stage_compressor 0xB0 = .err (.UnknownCompressor 0xB0) :=
  ⟨(decode_second_stage_compressor_spec 0x0A).1 rfl,
   (decode_second_stage_compressor_spec 0x0B).2.1 rfl,
   (decode_second_stage_compressor_spec 0xA0).2.2 (by decide) (by decide),
   (decode_second_stage_compressor_spec 0xB0).2.2 (by decide) (by decide)⟩

/-- Claim C6: wrapping a single texture fails with
`UnknownTextureFormat (ty &&& 0x0F)` exactly when the low nibble is outside
the set of seven recognised values, never fails with any other error, and
on each recognised nibble returns the variant given by the format table. -/
theorem wrap_single_texture_spec (ty : Nat) (raw : List Nat) :
    (wrap_single_texture ty raw = .err (.UnknownTextureFormat (ty &&& 0x0F)) ↔
      ty &&& 0x0F ∉ [0x01, 0x02, 0x03, 0x0B, 0x0C, 0x0E, 0x0F]) ∧
    (∀ e, wrap_single_texture ty raw = .err e → e = .UnknownTextureFormat (ty &&& 0x0F)) ∧
    (ty &&& 0x0F = 0x01 → wrap_single_texture ty raw = .ok (.Alpha_RGTC1_BC4 raw)) ∧
    (ty &&& 0x0F = 0x02 → wrap_single_texture ty raw = .ok (.RGBUnsignedFloat_BC6U raw)) ∧
    (ty &&& 0x0F = 0x03 → wrap_single_texture ty raw = .ok (.RGBSignedFloat_BC6S raw)) ∧
    (ty &&& 0x0F = 0x0B → wrap_single_texture ty raw = .ok (.RGB_DXT1_BC1 raw)) ∧
    (ty &&& 0x0F = 0x0C → wrap_single_texture ty raw = .ok (.RGBA_BC7 raw)) ∧
    (ty &&& 0x0F = 0x0E → wrap_single_texture ty raw = .ok (.RGBA_DXT5_BC3 raw)) ∧
    (ty &&& 0x0F = 0x0F → wrap_single_texture ty raw = .ok (.ScaledYCoCg_DXT5_BC3 raw)) := by
  obtain ⟨n, hn⟩ : ∃ n, ty &&& 0x0F = n := ⟨_, rfl⟩
  have hb : n ≤ 15 := by
    rw [← hn]
    exact Nat.and_le_right
  simp only [wrap_single_texture, hn]
  interval_cases n <;> simp

/-- Witness for C6: nibble 0x0B maps to the RGB DXT1 variant and
nibble 0x07 is rejected with `UnknownTextureFormat 0x07`. -/
theorem wrap_single_texture_spec_witness :
    wrap_single_texture 0xAB [1, 2] = .ok (.RGB_DXT1_BC1 [1, 2]) ∧
    wrap_single_texture 0xA7 [1, 2] = .err (.UnknownTextureFormat 0x07) :=
  ⟨(wrap_single_texture_spec 0xAB [1, 2]).2.2.2.2.2.1 (by decide),
   by
     have h := (wrap_single_texture_spec 0xA7 [1, 2]).1.mpr (by decide)
     simpa using h⟩

/-- Claim C2: encoding a `(size, type)` pair with the spec preamble encoder
(short form iff the size is nonzero and fits in 24 bits) and then running
the section-header reader recovers exactly the size and type, with header
size 4 for the short form and 8 for the long form, leaving the rest of the
stream untouched. -/
theorem preamble_round_trip (size ty : Nat) (rest : List Nat)
    (hsize : size < 4294967296) (_hty : ty < 256) :
    parse_section_header (encodePreamble size ty ++ rest) =
      .ok ({ size := size, section_type := ty,
             header_size := if size ≠ 0 ∧ size < 16777216 then 4 else 8 }, rest) := by
  by_cases hs : size ≠ 0 ∧ size < 16777216
  · have hu : u24 (size % 256) (size / 256 % 256) (size / 65536 % 256) = size := by
      unfold u24
      omega
    simp only [encodePreamble, if_pos hs, List.cons_append, List.nil_append,
      parse_section_header, hu, if_neg hs.1, if_pos hs]
  · have hu0 : u24 0 0 0 = 0 := rfl
    have hu : u32 (size % 256) (size / 256 % 256) (size / 65536 % 256)
        (size / 16777216 % 256) = size := by
      unfold u32
      omega
    simp only [encodePreamble, if_neg hs, List.cons_append, List.nil_append,
      parse_section_header, hu0, hu, if_neg hs]
    simp

/-- Witness for C2: a short-form and a long-form round trip at concrete
inputs, with the trailing stream preserved. -/
theorem preamble_round_trip_witness :
    parse_section_header (encodePreamble 16 0xAB ++ [1, 2]) =
      .ok ({ size := 16, section_type := 0xAB, header_size := 4 }, [1, 2]) ∧
    parse_section_header (encodePreamble 16777216 0x0D ++ [3]) =
      .ok ({ size := 16777216, section_type := 0x0D, header_size := 8 }, [3]) := by
  constructor
  · rw [preamble_round_trip 16 0xAB [1, 2] (by decide) (by decide)]
    decide
  · rw [preamble_round_trip 16777216 0x0D [3] (by decide) (by decide)]
    decide

/-- Claim C1 (evidence of the code bug): in the complex path the chunk
tables parse to a single chunk of size 1 with compressor None over a
2-byte body, so the claimed behaviour is a 1-byte payload
`B[0 .. 1] = [0xAA]`; the code instead executes
`decoded_raw_data.append(&mut buf)`, moving the ENTIRE body buffer into
the output, and returns the 2-byte payload `[0xAA, 0xBB]`. -/
theorem decode_texture_none_chunk_appends_whole_body :
    decode_complex_instruction
        ([13, 0, 0, 1] ++ [1, 0, 0, 2] ++ [0x0A] ++ [4, 0, 0, 3] ++ [1, 0, 0, 0]) =
      .ok ((17, [{ offset := 0, size := 1, compressor := .None }]), []) ∧
    decode_texture snappyStub { size := 19, section_type := 0xCB, header_size := 4 }
        ([13, 0, 0, 1] ++ [1, 0, 0, 2] ++ [0x0A] ++ [4, 0, 0, 3] ++ [1, 0, 0, 0] ++
          [0xAA, 0xBB]) =
      .ok (([0xAA, 0xBB], 0x0B), []) ∧
    ([0xAA, 0xBB] : List Nat) ≠ [0xAA] := by decide

/-- Claim C4 (evidence of the code bug): a complex header declaring a
4-byte payload whose first sub-section consumes 5 bytes makes the
unchecked `bytestreaming -= header_size + size` usize subtraction
underflow, so the parser panics (aborts under overflow checks, wraps and
over-consumes in release) instead of returning an IO or parse error. -/
theorem decode_complex_instruction_overshoot_panics :
    decode_complex_instruction [4, 0, 0, 1, 1, 0, 0, 2] = .panic := by decide

/-- Claim C9: a stream whose chunk tables parse cleanly (the running count
reaches exactly zero) but whose single Snappy chunk declares size 5 over a
2-byte body drives `decode_texture` into the unchecked slice
`buf[offset .. offset + size]`, whose out-of-range branch panics: the
decoder is partial on this input rather than returning an error value.
The panic is reached before any decompression, so the Snappy stub is
never consulted. -/
theorem decode_texture_oob_slice_panics :
    decode_complex_instruction
        ([13, 0, 0, 1] ++ [1, 0, 0, 2] ++ [0x0B] ++ [4, 0, 0, 3] ++ [5, 0, 0, 0]) =
      .ok ((17, [{ offset := 0, size := 5, compressor := .Snappy }]), []) ∧
    decode_texture snappyStub { size := 19, section_type := 0xCB, header_size := 4 }
        ([13, 0, 0, 1] ++ [1, 0, 0, 2] ++ [0x0B] ++ [4, 0, 0, 3] ++ [5, 0, 0, 0] ++
          [0xAA, 0xBB]) =
      .panic := by decide

theorem buildChunksGo_cumSumsAux (sizes : List Nat) :
    ∀ (comps : List SecondStageCompressor) (acc : Nat),
    buildChunksGo true sizes comps (cumSumsAux acc sizes) acc =
      buildChunksGo false sizes comps [] acc := by
  induction sizes with
  | nil =>
    intro comps acc
    rfl
  | cons sz sizes ih =>
    intro comps acc
    simp only [cumSumsAux, buildChunksGo]
    by_cases hov : 4294967296 ≤ acc + sz
    · simp [hov]
    · cases comps with
      | nil => simp [hov]
      | cons comp comps => simp [hov, ih]

theorem buildChunksGo_offsets (sizes : List Nat) :
    ∀ (comps : List SecondStageCompressor) (acc : Nat) (chunks : List ChunkInfo),
    buildChunksGo false sizes comps [] acc = .ok chunks →
    chunks.map ChunkInfo.offset = cumSumsAux acc sizes := by
  induction sizes with
  | nil =>
    intro comps acc chunks h
    obtain rfl : ([] : List ChunkInfo) = chunks := by
      simpa [buildChunksGo] using h
    rfl
  | cons sz sizes ih =>
    intro comps acc chunks h
    simp only [buildChunksGo] at h
    by_cases hov : 4294967296 ≤ acc + sz
    · simp [hov] at h
    · cases comps with
      | nil => simp [hov] at h
      | cons comp comps =>
        simp only [hov, if_false, if_neg hov] at h
        cases hrec : buildChunksGo false sizes comps [] (acc + sz) with
        | ok rest =>
          simp [hrec] at h
          obtain rfl := h.symm
          simp [cumSumsAux, ih comps (acc + sz) rest hrec]
        | err e => simp [hrec] at h
        | panic => simp [hrec] at h

/-- Claim C5: when the offset table equals the prefix sums of the chunk
sizes (starting at zero), the chunk descriptors and hence the decoded
payload are identical whether the offset table is supplied or absent; and
when the table is absent, each chunk offset is the cumulative sum of all
prior chunk sizes. -/
theorem offset_table_equivalence (snappy : List Nat → Option (List Nat))
    (comps : List SecondStageCompressor) (sizes offs body : List Nat)
    (h : offs = cumSums sizes) :
    (Outcome.bind (buildChunks comps sizes offs)
        (fun chunks => processChunks snappy chunks body []) =
      Outcome.bind (buildChunks comps sizes [])
        (fun chunks => processChunks snappy chunks body [])) ∧
    (∀ chunks, buildChunks comps sizes [] = .ok chunks →
      chunks.map ChunkInfo.offset = cumSums sizes) := by
  subst h
  have hmain : buildChunks comps sizes (cumSums sizes) = buildChunks comps sizes [] := by
    unfold buildChunks cumSums
    cases sizes with
    | nil => rfl
    | cons sz sizes =>
      have hne : (cumSumsAux 0 (sz :: sizes)).isEmpty = false := by
        simp [cumSumsAux]
      rw [hne]
      simpa using buildChunksGo_cumSumsAux (sz :: sizes) comps 0
  refine ⟨by rw [hmain], fun chunks hch => ?_⟩
  have : buildChunksGo false sizes comps [] 0 = .ok chunks := by
    simpa [buildChunks] using hch
  exact buildChunksGo_offsets sizes comps 0 chunks this

/-- Witness for C5: a two-chunk layout where supplying the prefix-sum
offset table `[0, 2]` decodes to the same payload as omitting it. -/
theorem offset_table_equivalence_witness :
    Outcome.bind (buildChunks [.None, .None] [2, 3] [0, 2])
        (fun chunks => processChunks snappyStub chunks [5, 6, 7, 8, 9] []) =
      Outcome.bind (buildChunks [.None, .None] [2, 3] [])
        (fun chunks => processChunks snappyStub chunks [5, 6, 7, 8, 9] []) :=
  (offset_table_equivalence snappyStub [.None, .None] [2, 3] [0, 2] [5, 6, 7, 8, 9]
    (by decide)).1

theorem buildChunksGo_ok (sizes : List Nat) :
    ∀ (comps : List SecondStageCompressor) (offs : List Nat) (subtotal : Nat)
      (useTable : Bool),
    comps.length = sizes.length →
    (useTable = true → offs.length = sizes.length) →
    subtotal + sizes.sum < 4294967296 →
    ∃ chunks, buildChunksGo useTable sizes comps offs subtotal = .ok chunks ∧
      chunks.length = sizes.length := by
  induction sizes with
  | nil =>
    intro comps offs subtotal useTable h1 h2 h3
    exact ⟨[], rfl, rfl⟩
  | cons sz sizes ih =>
    intro comps offs subtotal useTable h1 h2 h3
    cases comps with
    | nil => simp at h1
    | cons comp comps =>
      have hov : ¬ 4294967296 ≤ subtotal + sz := by
        simp only [List.sum_cons] at h3
        omega
      have hrec : subtotal + sz + sizes.sum < 4294967296 := by
        simp only [List.sum_cons] at h3
        omega
      have h1r : comps.length = sizes.length := by simpa using h1
      cases useTable with
      | false =>
        obtain ⟨chunks, hch, hlen⟩ :=
          ih comps offs (subtotal + sz) false h1r (by simp) hrec
        refine ⟨{ offset := subtotal, size := sz, compressor := comp } :: chunks, ?_, ?_⟩
        · simp [buildChunksGo, hov, hch]
        · simp [hlen]
      | true =>
        cases offs with
        | nil => simpa using h2 rfl
        | cons o offs =>
          have h2r : offs.length = sizes.length := by simpa using h2 rfl
          obtain ⟨chunks, hch, hlen⟩ :=
            ih comps offs (subtotal + sz) true h1r (fun _ => h2r) hrec
          refine ⟨{ offset := o, size := sz, compressor := comp } :: chunks, ?_, ?_⟩
          · simp [buildChunksGo, hov, hch]
          · simp [hlen]

/-- Claim C8 (amended): when the compressor table and size table have the
same length n, the offset table is empty or also has length n, and the
running u32 total of the chunk sizes does not overflow, the chunk build
loop reads no table index out of bounds and returns exactly n chunk
descriptors. -/
theorem buildChunks_length (comps : List SecondStageCompressor) (sizes offs : List Nat)
    (h1 : comps.length = sizes.length)
    (h2 : offs = [] ∨ offs.length = sizes.length)
    (h3 : sizes.sum < 4294967296) :
    ∃ chunks, buildChunks comps sizes offs = .ok chunks ∧
      chunks.length = sizes.length := by
  unfold buildChunks
  rcases h2 with rfl | hlen
  · exact buildChunksGo_ok sizes comps [] 0 false h1 (by simp) (by simpa using h3)
  · cases offs with
    | nil => exact buildChunksGo_ok sizes comps [] 0 false h1 (by simp) (by simpa using h3)
    | cons o offs =>
      exact buildChunksGo_ok sizes comps (o :: offs) 0 true h1 (fun _ => hlen)
        (by simpa using h3)

/-- Counterexample for C8 as stated: the compressor and size tables both
have length 2 and the offset table is empty, satisfying the claimed
precondition, yet the build loop does not return 2 descriptors: the u32
accumulator `size_subtotal` overflows on the second chunk
(2^31 + 2^31 = 2^32) and the loop panics. -/
theorem buildChunks_overflow_counterexample :
    [SecondStageCompressor.None, .None].length = [2147483648, 2147483648].length ∧
    buildChunks [.None, .None] [2147483648, 2147483648] [] = .panic := by decide

/-- Witness for C8 (amended): two chunks with in-range sizes produce
exactly two descriptors. -/
theorem buildChunks_length_witness :
    ∃ chunks, buildChunks [SecondStageCompressor.None, .Snappy] [2, 3] [] = .ok chunks ∧
      chunks.length = ([2, 3] : List Nat).length :=
  buildChunks_length [.None, .Snappy] [2, 3] [] (by decide) (.inl rfl) (by decide)

theorem parse_section_header_err_eq (input : List Nat) (e : Error)
    (h : parse_section_header input = .err e) : e = .ioErr := by
  unfold parse_section_header at h
  split at h
  · split at h
    · split at h
      · simp at h
      · simp only [Outcome.err.injEq] at h
        exact h.symm
    · simp at h
  · simp only [Outcome.err.injEq] at h
    exact h.symm

theorem readBytes_err_eq (n : Nat) (input : List Nat) (e : Error)
    (h : readBytes n input = .err e) : e = .ioErr := by
  unfold readBytes at h
  split at h
  · simp at h
  · simp only [Outcome.err.injEq] at h
    exact h.symm

theorem decode_second_stage_compressor_err_eq (b : Nat) (e : Error)
    (h : decode_second_stage_compressor b = .err e) : e = .UnknownCompressor b := by
  unfold decode_second_stage_compressor at h
  split at h
  · simp at h
  · split at h
    · simp at h
    · simp only [Outcome.err.injEq] at h
      exact h.symm

theorem parseCompressorTable_err_eq (l : List Nat) (e : Error)
    (h : parseCompressorTable l = .err e) : exists b, e = .UnknownCompressor b := by
  induction l generalizing e with
  | nil => simp [parseCompressorTable] at h
  | cons b rest ih =>
    unfold parseCompressorTable at h
    split at h
    · split at h
      · simp at h
      · rename_i heq
        simp only [Outcome.err.injEq] at h
        exact h ▸ ih _ heq
      · simp at h
    · rename_i heq
      simp only [Outcome.err.injEq] at h
      exact ⟨b, h ▸ decode_second_stage_compressor_err_eq b _ heq⟩
    · simp at h

theorem parseU32Table_err_eq : (l : List Nat) → (e : Error) →
    parseU32Table l = .err e → e = .ioErr
  | [], e, h => by simp [parseU32Table] at h
  | b0 :: b1 :: b2 :: b3 :: rest, e, h => by
    unfold parseU32Table at h
    split at h
    · simp at h
    · rename_i heq
      simp only [Outcome.err.injEq] at h
      exact h ▸ parseU32Table_err_eq rest _ heq
    · simp at h
  | [b0], e, h => by
    simp only [parseU32Table, Outcome.err.injEq] at h
    exact h.symm
  | [b0, b1], e, h => by
    simp only [parseU32Table, Outcome.err.injEq] at h
    exact h.symm
  | [b0, b1, b2], e, h => by
    simp only [parseU32Table, Outcome.err.injEq] at h
    exact h.symm

theorem sub_section_loop_err_eq (fuel : Nat) :
    ∀ (remaining : Nat) (input : List Nat) (comps : List SecondStageCompressor)
      (sizes offs : List Nat) (e : Error),
    sub_section_loop fuel remaining input comps sizes offs = .err e →
    e = .ioErr ∨ exists b, e = .UnknownCompressor b := by
  induction fuel with
  | zero =>
    intro remaining input comps sizes offs e h
    simp [sub_section_loop] at h
  | succ fuel ih =>
    intro remaining input comps sizes offs e h
    cases remaining with
    | zero => simp [sub_section_loop] at h
    | succ r =>
      unfold sub_section_loop at h
      split at h
      · simp at h
      · simp at h
      · rename_i fuel2 heq2 hcond
        obtain rfl : fuel2 = fuel := by omega
        split at h
        · rename_i heq
          simp only [Outcome.err.injEq] at h
          exact .inl (h ▸ parse_section_header_err_eq _ _ heq)
        · simp at h
        · split at h
          · simp at h
          · split at h
            · rename_i heq
              simp only [Outcome.err.injEq] at h
              exact .inl (h ▸ readBytes_err_eq _ _ _ heq)
            · simp at h
            · split at h
              · split at h
                · exact ih _ _ _ _ _ _ h
                · rename_i heq
                  simp only [Outcome.err.injEq] at h
                  exact .inr (h ▸ parseCompressorTable_err_eq _ _ heq)
                · simp at h
              · split at h
                · split at h
                  · exact ih _ _ _ _ _ _ h
                  · rename_i heq
                    simp only [Outcome.err.injEq] at h
                    exact .inl (h ▸ parseU32Table_err_eq _ _ heq)
                  · simp at h
                · split at h
                  · split at h
                    · exact ih _ _ _ _ _ _ h
                    · rename_i heq
                      simp only [Outcome.err.injEq] at h
                      exact .inl (h ▸ parseU32Table_err_eq _ _ heq)
                    · simp at h
                  · exact ih _ _ _ _ _ _ h

theorem buildChunksGo_ne_err (useTable : Bool) (sizes : List Nat) :
    ∀ (comps : List SecondStageCompressor) (offs : List Nat) (subtotal : Nat) (e : Error),
    buildChunksGo useTable sizes comps offs subtotal ≠ .err e := by
  induction sizes with
  | nil =>
    intro comps offs subtotal e h
    simp [buildChunksGo] at h
  | cons sz sizes ih =>
    intro comps offs subtotal e h
    simp only [buildChunksGo] at h
    split at h
    · simp at h
    · rename_i heq
      split at heq
      · cases offs <;> simp at heq
      · simp at heq
    · split at h
      · simp at h
      · split at h
        · simp at h
        · split at h
          · simp at h
          · rename_i heq
            exact ih _ _ _ _ heq
          · simp at h

theorem decode_complex_instruction_err_eq (input : List Nat) (e : Error)
    (h : decode_complex_instruction input = .err e) :
    e = .ioErr ∨ exists b, e = .UnknownCompressor b := by
  unfold decode_complex_instruction at h
  split at h
  · rename_i heq
    simp only [Outcome.err.injEq] at h
    exact .inl (h ▸ parse_section_header_err_eq _ _ heq)
  · simp at h
  · split at h
    · rename_i heq
      simp only [Outcome.err.injEq] at h
      exact h ▸ sub_section_loop_err_eq _ _ _ _ _ _ _ heq
    · simp at h
    · split at h
      · rename_i heq
        unfold buildChunks at heq
        exact absurd heq (buildChunksGo_ne_err _ _ _ _ _ _)
      · simp at h
      · simp at h

theorem processChunks_err_eq (snappy : List Nat → Option (List Nat))
    (cs : List ChunkInfo) :
    ∀ (buf acc : List Nat) (e : Error),
    processChunks snappy cs buf acc = .err e → e = .snappyErr := by
  induction cs with
  | nil =>
    intro buf acc e h
    simp [processChunks] at h
  | cons c cs ih =>
    intro buf acc e h
    unfold processChunks at h
    split at h
    · split at h
      · split at h
        · exact ih _ _ _ h
        · simp only [Outcome.err.injEq] at h
          exact h.symm
      · simp at h
    · exact ih _ _ _ h

theorem decode_texture_err_ne_utf (snappy : List Nat → Option (List Nat))
    (rs : RawSection) (input : List Nat) (e : Error)
    (h : decode_texture snappy rs input = .err e) :
    ∀ n, e ≠ .UnknownTextureFormat n := by
  intro n
  unfold decode_texture at h
  split at h
  · split at h
    · rename_i heq
      simp only [Outcome.err.injEq] at h
      subst h
      rcases decode_complex_instruction_err_eq _ _ heq with h1 | ⟨b, h1⟩ <;> simp [h1]
    · simp at h
    · split at h
      · simp at h
      · split at h
        · rename_i heq
          simp only [Outcome.err.injEq] at h
          subst h
          simp [readBytes_err_eq _ _ _ heq]
        · simp at h
        · split at h
          · rename_i heq
            simp only [Outcome.err.injEq] at h
            subst h
            simp [processChunks_err_eq _ _ _ _ _ heq]
          · simp at h
          · simp at h
  · split at h
    · split at h
      · rename_i heq
        simp only [Outcome.err.injEq] at h
        subst h
        simp [readBytes_err_eq _ _ _ heq]
      · simp at h
      · simp at h
    · split at h
      · split at h
        · rename_i heq
          simp only [Outcome.err.injEq] at h
          subst h
          simp [readBytes_err_eq _ _ _ heq]
        · simp at h
        · split at h
          · simp at h
          · simp only [Outcome.err.injEq] at h
            subst h
            simp
      · simp only [Outcome.err.injEq] at h
        subst h
        simp

theorem decode_texture_fmt (snappy : List Nat → Option (List Nat)) (rs : RawSection)
    (input raw : List Nat) (fmt : Nat) (rest : List Nat)
    (h : decode_texture snappy rs input = .ok ((raw, fmt), rest)) :
    fmt = rs.section_type &&& 0x0F := by
  unfold decode_texture at h
  split at h
  · split at h
    · simp at h
    · simp at h
    · split at h
      · simp at h
      · split at h
        · simp at h
        · simp at h
        · split at h
          · simp at h
          · simp at h
          · simp only [Outcome.ok.injEq, Prod.mk.injEq] at h
            exact h.1.2.symm
  · split at h
    · split at h
      · simp at h
      · simp at h
      · simp only [Outcome.ok.injEq, Prod.mk.injEq] at h
        exact h.1.2.symm
    · split at h
      · split at h
        · simp at h
        · simp at h
        · split at h
          · simp only [Outcome.ok.injEq, Prod.mk.injEq] at h
            exact h.1.2.symm
          · simp at h
      · simp at h

/-- Claim C3: for a frame whose outer section type is the multi-image
marker 0x0D, when the first inner section satisfies
`header_size + size = outer.size` the decoder decodes exactly that one
inner texture and wraps it by the INNER section low nibble
(`i1.section_type &&& 0x0F`, never the outer 0x0D); for any other relation
it decodes two inner textures and pairs them. -/
theorem decode_frame_multi_image_dispatch (snappy : List Nat → Option (List Nat))
    (input r1 r2 : List Nat) (o i1 : RawSection)
    (h1 : parse_section_header input = .ok (o, r1))
    (h2 : o.section_type = 0x0D)
    (h3 : parse_section_header r1 = .ok (i1, r2)) :
    (i1.header_size + i1.size = o.size →
      decode_frame snappy input =
        Outcome.bind (decode_texture snappy i1 r2) fun x =>
          Outcome.bind (wrap_single_texture (i1.section_type &&& 0x0F) x.1.1) fun t =>
            .ok (t, x.2)) ∧
    (i1.header_size + i1.size ≠ o.size →
      decode_frame snappy input =
        Outcome.bind (decode_texture snappy i1 r2) fun x =>
          Outcome.bind (parse_section_header x.2) fun y =>
            Outcome.bind (decode_texture snappy y.1 y.2) fun z =>
              .ok (.MultipleImages_ScaledYCoCg_DXT5_Alpha_RGTC1 x.1.1 z.1.1, z.2)) := by
  constructor
  · intro hc
    unfold decode_frame
    simp only [h1, h2, h3, eq_self_iff_true, if_true, if_pos hc]
    cases hdt : decode_texture snappy i1 r2 with
    | err e => simp
    | panic => simp
    | ok x =>
      obtain ⟨⟨raw, fmt⟩, r3⟩ := x
      have hfmt := decode_texture_fmt snappy i1 r2 raw fmt r3 hdt
      simp only [Outcome.bind_ok, ← hfmt]
      cases hw : wrap_single_texture fmt raw <;> simp [hw]
  · intro hc
    unfold decode_frame
    simp only [h1, h2, h3, eq_self_iff_true, if_true, if_neg hc]
    cases hdt : decode_texture snappy i1 r2 with
    | err e => simp
    | panic => simp
    | ok x =>
      obtain ⟨⟨dxt5, fmt⟩, r3⟩ := x
      simp only [Outcome.bind_ok]
      cases hp : parse_section_header r3 with
      | err e => simp
      | panic => simp
      | ok y =>
        obtain ⟨i2, r4⟩ := y
        simp only [Outcome.bind_ok]
        cases hdt2 : decode_texture snappy i2 r4 with
        | err e => simp
        | panic => simp
        | ok z =>
          obtain ⟨⟨rgtc1, fmt2⟩, r5⟩ := z
          simp

/-- Witness for C3: a multi-image marker frame whose single inner texture
(the consumed-equals-size test holds) is wrapped by the inner nibble 0x0B
as RGB DXT1, not by the outer 0x0D. -/
theorem decode_frame_multi_image_dispatch_witness :
    decode_frame snappyStub
        ([20, 0, 0, 0x0D] ++ [16, 0, 0, 0xAB] ++
          [0, 1, 2, 3, 4, 5, 6, 7, 8, 9, 10, 11, 12, 13, 14, 15]) =
      .ok (.RGB_DXT1_BC1 [0, 1, 2, 3, 4, 5, 6, 7, 8, 9, 10, 11, 12, 13, 14, 15], []) := by
  have h := (decode_frame_multi_image_dispatch snappyStub
      ([20, 0, 0, 0x0D] ++ [16, 0, 0, 0xAB] ++
        [0, 1, 2, 3, 4, 5, 6, 7, 8, 9, 10, 11, 12, 13, 14, 15])
      ([16, 0, 0, 0xAB] ++ [0, 1, 2, 3, 4, 5, 6, 7, 8, 9, 10, 11, 12, 13, 14, 15])
      [0, 1, 2, 3, 4, 5, 6, 7, 8, 9, 10, 11, 12, 13, 14, 15]
      { size := 20, section_type := 0x0D, header_size := 4 }
      { size := 16, section_type := 0xAB, header_size := 4 }
      (by decide) (by decide) (by decide)).1 (by decide)
  rw [h]
  decide

/-- Claim C10: on the two-texture multi-image path (outer type 0x0D and
`i1.header_size + i1.size ≠ outer.size`) the decoder never returns
`UnknownTextureFormat` — the low nibbles of both inner sections are
discarded without validation — and any successful decode is the
`MultipleImages_ScaledYCoCg_DXT5_Alpha_RGTC1` variant. -/
theorem decode_frame_two_texture_no_format_check (snappy : List Nat → Option (List Nat))
    (input r1 r2 : List Nat) (o i1 : RawSection)
    (h1 : parse_section_header input = .ok (o, r1))
    (h2 : o.section_type = 0x0D)
    (h3 : parse_section_header r1 = .ok (i1, r2))
    (h4 : i1.header_size + i1.size ≠ o.size) :
    (∀ n, decode_frame snappy input ≠ .err (.UnknownTextureFormat n)) ∧
    (∀ t rest, decode_frame snappy input = .ok (t, rest) →
      ∃ a b, t = .MultipleImages_ScaledYCoCg_DXT5_Alpha_RGTC1 a b) := by
  unfold decode_frame
  simp only [h1, h2, h3, eq_self_iff_true, if_true, if_neg h4]
  cases hdt : decode_texture snappy i1 r2 with
  | err e =>
    have hne := decode_texture_err_ne_utf snappy i1 r2 e hdt
    constructor
    · intro n hcon
      simp only [Outcome.err.injEq] at hcon
      exact hne n hcon
    · intro t rest hok
      simp at hok
  | panic =>
    constructor
    · intro n hcon
      simp at hcon
    · intro t rest hok
      simp at hok
  | ok x =>
    obtain ⟨⟨dxt5, fmt⟩, r3⟩ := x
    cases hp : parse_section_header r3 with
    | err e =>
      have he := parse_section_header_err_eq r3 e hp
      constructor
      · intro n hcon
        simp only [hp] at hcon
        simp only [Outcome.err.injEq] at hcon
        simp [he] at hcon
      · intro t rest hok
        simp only [hp] at hok
        simp at hok
    | panic =>
      constructor
      · intro n hcon
        simp only [hp] at hcon
        simp at hcon
      · intro t rest hok
        simp only [hp] at hok
        simp at hok
    | ok y =>
      obtain ⟨i2, r4⟩ := y
      cases hdt2 : decode_texture snappy i2 r4 with
      | err e =>
        have hne := decode_texture_err_ne_utf snappy i2 r4 e hdt2
        constructor
        · intro n hcon
          simp only [hp, hdt2] at hcon
          simp only [Outcome.err.injEq] at hcon
          exact hne n hcon
        · intro t rest hok
          simp only [hp, hdt2] at hok
          simp at hok
      | panic =>
        constructor
        · intro n hcon
          simp only [hp, hdt2] at hcon
          simp at hcon
        · intro t rest hok
          simp only [hp, hdt2] at hok
          simp at hok
      | ok z =>
        obtain ⟨⟨rgtc1, fmt2⟩, r5⟩ := z
        constructor
        · intro n hcon
          simp only [hp, hdt2] at hcon
          simp at hcon
        · intro t rest hok
          simp only [hp, hdt2] at hok
          simp only [Outcome.ok.injEq, Prod.mk.injEq] at hok
          exact ⟨dxt5, rgtc1, hok.1.symm⟩

/-- Witness for C10: a two-texture frame whose inner nibbles are 0x07 and
0x01; the unrecognised nibble 0x07 is accepted on this path and the result
is the multi-image pair. -/
theorem decode_frame_two_texture_no_format_check_witness :
    decode_frame snappyStub
        ([13, 0, 0, 0x0D] ++ [2, 0, 0, 0xA7] ++ [9, 9] ++ [3, 0, 0, 0xA1] ++ [7, 7, 7]) ≠
      .err (.UnknownTextureFormat 0x07) ∧
    decode_frame snappyStub
        ([13, 0, 0, 0x0D] ++ [2, 0, 0, 0xA7] ++ [9, 9] ++ [3, 0, 0, 0xA1] ++ [7, 7, 7]) =
      .ok (.MultipleImages_ScaledYCoCg_DXT5_Alpha_RGTC1 [9, 9] [7, 7, 7], []) :=
  ⟨(decode_frame_two_texture_no_format_check snappyStub
      ([13, 0, 0, 0x0D] ++ [2, 0, 0, 0xA7] ++ [9, 9] ++ [3, 0, 0, 0xA1] ++ [7, 7, 7])
      ([2, 0, 0, 0xA7] ++ [9, 9] ++ [3, 0, 0, 0xA1] ++ [7, 7, 7])
      ([9, 9] ++ [3, 0, 0, 0xA1] ++ [7, 7, 7])
      { size := 13, section_type := 0x0D, header_size := 4 }
      { size := 2, section_type := 0xA7, header_size := 4 }
      (by decide) (by decide) (by decide) (by decide)).1 0x07,
   by decide⟩

end Hap
